import Mathlib

/-!
Verification of the CalcsLive FreeCAD plug against its specification.

The Python sources are shallowly embedded: Python strings become `String`,
Python floats become `ℚ` (the comparisons at stake are far from any
floating-point rounding boundary), Python dicts become insertion-ordered
association lists, raised exceptions become `Except` errors, and the live
FreeCAD document object graph becomes an explicit `Doc` value that the
embedded operations read and return.
-/

namespace CalcsLive

/-! ## Python string primitives -/

/-- Does the first character list occur at the head of the second one. -/
def startsChars : List Char → List Char → Bool
  | [], _ => true
  | _ :: _, [] => false
  | a :: as, b :: bs => a == b && startsChars as bs

/-- Substring search over character lists; models the Python test `n in h`. -/
def subChars (n : List Char) : List Char → Bool
  | [] => startsChars n []
  | c :: cs => startsChars n (c :: cs) || subChars n cs

/-- Python membership test `needle in hay` on strings. -/
def strIn (needle hay : String) : Bool := subChars needle.data hay.data

/-- Split a character list at every character satisfying `p`. -/
def splitPredChars (p : Char → Bool) : List Char → List (List Char)
  | [] => [[]]
  | x :: xs =>
    let r := splitPredChars p xs
    if p x then [] :: r
    else
      match r with
      | [] => [[x]]
      | h :: t => (x :: h) :: t

/-- Python `s.split()` with no argument: split on whitespace, drop empties. -/
def pySplitWs (s : String) : List String :=
  ((splitPredChars Char.isWhitespace s.data).map (fun l => String.mk l)).filter
    (fun t => t ≠ "")

/-- Drop leading whitespace of a character list. -/
def dropWsLeft : List Char → List Char
  | [] => []
  | c :: cs => if c.isWhitespace then dropWsLeft cs else c :: cs

/-- Python `s.strip()`: drop whitespace at both ends. -/
def pyStrip (s : String) : String :=
  String.mk (dropWsLeft ((dropWsLeft s.data).reverse)).reverse

/-- Python `s.count(c)` for a single character. -/
def countChar (s : String) (c : Char) : Nat := s.data.count c

/-- Split a character list at the first occurrence of `c`; `none` when absent. -/
def splitOnceChars (c : Char) : List Char → Option (List Char × List Char)
  | [] => none
  | x :: xs =>
    if x == c then some ([], xs)
    else (splitOnceChars c xs).map (fun p => (x :: p.1, p.2))

/-- Python `s.split(c, 1)` when `c` occurs in `s`; `none` models the
one-element result list. -/
def pySplitOnce (s : String) (c : Char) : Option (String × String) :=
  (splitOnceChars c s.data).map (fun p => (String.mk p.1, String.mk p.2))

/-- Python `s.split(c)` for a one-character separator, on character lists. -/
def splitChChars (c : Char) : List Char → List (List Char)
  | [] => [[]]
  | x :: xs =>
    let r := splitChChars c xs
    if x == c then [] :: r
    else
      match r with
      | [] => [[x]]
      | h :: t => (x :: h) :: t

/-- Python `s.split(c)` for a one-character separator. -/
def pySplitCh (s : String) (c : Char) : List String :=
  (splitChChars c s.data).map (fun l => String.mk l)

/-- Locate the first occurrence of `sep` in a list: `(before, after)`. -/
def dropAfterSub (sep : List Char) : List Char → Option (List Char × List Char)
  | [] => if sep.isEmpty then some ([], []) else none
  | x :: xs =>
    if startsChars sep (x :: xs) then some ([], (x :: xs).drop sep.length)
    else (dropAfterSub sep xs).map (fun p => (x :: p.1, p.2))

/-- Fueled worker for splitting on a multi-character separator. -/
def splitSubAux (sep : List Char) : Nat → List Char → List (List Char)
  | 0, l => [l]
  | fuel + 1, l =>
    match dropAfterSub sep l with
    | none => [l]
    | some (pre, post) => pre :: splitSubAux sep fuel post

/-- Python `s.split(sep)` for a non-empty multi-character separator. -/
def pySplitSub (s sep : String) : List String :=
  (splitSubAux sep.data (s.length + 1) s.data).map (fun l => String.mk l)

/-- Python `s.lower()`, one character at a time. -/
def pyLower (s : String) : String := String.mk (s.data.map Char.toLower)

/-- Python `s.replace(a, b)` for one-character arguments. -/
def replaceChar (s : String) (a b : Char) : String :=
  String.mk (s.data.map (fun c => if c == a then b else c))

/-- Digit test for a whole character list. -/
def allDigits (l : List Char) : Bool := l.all Char.isDigit

/-- Numeric value of a digit list. -/
def digitsToNat (l : List Char) : Nat :=
  l.foldl (fun a c => a * 10 + (c.toNat - 48)) 0

/-- Value of a fractional digit list. -/
def fracVal (l : List Char) : ℚ := (digitsToNat l : ℚ) / (10 ^ l.length)

/-- Python `float(s)` modelled on plain decimal literals: optional sign,
digits with an optional decimal point.  Exponent and inf or nan forms, which
never occur in the strings this plug formats, are rejected. -/
def pyFloat? (s : String) : Option ℚ :=
  let t := (pyStrip s).data
  let sgnU : ℚ × List Char :=
    match t with
    | '-' :: rest => (-1, rest)
    | '+' :: rest => (1, rest)
    | _ => (1, t)
  let sgn := sgnU.1
  let u := sgnU.2
  match splitOnceChars '.' u with
  | none => if u ≠ [] ∧ allDigits u then some (sgn * digitsToNat u) else none
  | some (ip, fp) =>
    if (ip ≠ [] ∨ fp ≠ []) ∧ allDigits ip ∧ allDigits fp then
      some (sgn * ((digitsToNat ip : ℚ) + fracVal fp))
    else none

/-! ## UnitMapper (src/core/UnitMapper.py)

Python dicts are embedded as insertion-ordered association lists with
override-on-reinsert semantics, exactly the behaviour of `dict` literals,
dict comprehensions and `dict.update`. -/

/-- Insert into an association list with Python `d[k] = v` semantics. -/
def dictInsert (d : List (String × String)) (k v : String) :
    List (String × String) :=
  if d.any (fun p => p.1 == k) then
    d.map (fun p => if p.1 == k then (k, v) else p)
  else d ++ [(k, v)]

/-- Python `d.get(k)` on an association list without duplicate keys. -/
def dictGet? (d : List (String × String)) (k : String) : Option String :=
  (d.find? (fun p => p.1 == k)).map (fun p => p.2)

/-- The `UnitMapper.FREECAD_TO_CALCSLIVE` dict literal, in source order. -/
def FREECAD_TO_CALCSLIVE : List (String × String) :=
  [("mm", "mm"), ("cm", "cm"), ("m", "m"), ("in", "in"), ("ft", "ft"),
   ("mm²", "mm²"), ("cm²", "cm²"), ("m²", "m²"), ("in²", "in²"),
   ("ft²", "ft²"),
   ("mm³", "mm³"), ("cm³", "cm³"), ("m³", "m³"), ("in³", "in³"),
   ("ft³", "ft³"), ("l", "L"),
   ("deg", "°"), ("rad", "rad"),
   ("g", "g"), ("kg", "kg"), ("lb", "lbm"),
   ("N", "N"), ("kN", "kN"), ("lbf", "lbf"),
   ("Pa", "Pa"), ("kPa", "kPa"), ("MPa", "MPa"), ("bar", "bar"),
   ("psi", "psi"),
   ("s", "s"), ("min", "min"), ("h", "h"),
   ("K", "K"), ("°C", "°C"), ("°F", "°F")]

/-- The `UnitMapper.CALCSLIVE_TO_FREECAD` dict: the value-to-key
comprehension over `FREECAD_TO_CALCSLIVE` followed by the three-entry
`update` for the renamed symbols. -/
def CALCSLIVE_TO_FREECAD : List (String × String) :=
  dictInsert (dictInsert (dictInsert
    (FREECAD_TO_CALCSLIVE.foldl (fun d p => dictInsert d p.2 p.1) [])
    "L" "l") "°" "deg") "lbm" "lb"

/-- The classmethod `UnitMapper.freecad_to_calcslive`: table lookup, or the
input itself when unmapped. -/
def freecad_to_calcslive (u : String) : String :=
  (dictGet? FREECAD_TO_CALCSLIVE u).getD u

/-- The classmethod `UnitMapper.calcslive_to_freecad`: table lookup, or the
input itself when unmapped. -/
def calcslive_to_freecad (u : String) : String :=
  (dictGet? CALCSLIVE_TO_FREECAD u).getD u

/-- C5: for every unit string that is a key of the FREECAD_TO_CALCSLIVE
table, mapping it to CalcsLive notation and back returns the key itself; in
particular the renamed symbols round-trip: l through L, deg through °, and
lb through lbm. -/
theorem c5_unit_round_trip :
    (∀ u ∈ FREECAD_TO_CALCSLIVE.map Prod.fst,
        calcslive_to_freecad (freecad_to_calcslive u) = u) ∧
    freecad_to_calcslive "l" = "L" ∧
    calcslive_to_freecad (freecad_to_calcslive "l") = "l" ∧
    freecad_to_calcslive "deg" = "°" ∧
    calcslive_to_freecad (freecad_to_calcslive "deg") = "deg" ∧
    freecad_to_calcslive "lb" = "lbm" ∧
    calcslive_to_freecad (freecad_to_calcslive "lb") = "lb" := by
  decide

/-- C5 witness: the bounded quantifier of `c5_unit_round_trip` discharged at
the concrete key "min". -/
theorem c5_unit_round_trip_witness :
    calcslive_to_freecad (freecad_to_calcslive "min") = "min" :=
  c5_unit_round_trip.1 "min" (by decide)

/-! ## ModelUpdater matching heuristic (src/v0/core/ModelUpdater.py)

The extracted-parameters dictionary is embedded as its key list in
insertion order, which is exactly what the Python `in` test and `for`
iteration over a dict observe. -/

/-- Length of the result of `ModelUpdater._common_prefix`. -/
def common_prefix_len : List Char → List Char → Nat
  | a :: as, b :: bs => if a == b then common_prefix_len as bs + 1 else 0
  | _, _ => 0

/-- Length of the result of `ModelUpdater._common_suffix`: the loop compares
characters from the right end, that is, a common head of the reversals. -/
def common_suffix_len (s1 s2 : List Char) : Nat :=
  common_prefix_len s1.reverse s2.reverse

/-- The method `ModelUpdater._calculate_match_score`.  Python float
arithmetic is embedded as exact rational arithmetic; every comparison this
development makes about the scores has a margin far above the rounding
error of the float computation. -/
def calculate_match_score (cl fc : String) : ℚ :=
  if cl = fc then 1
  else if pyLower cl = pyLower fc then 9/10
  else
    let cll := pyLower cl
    let fcl := pyLower fc
    if strIn cll fcl then (7/10) * ((cll.length : ℚ) / (fcl.length : ℚ))
    else if strIn fcl cll then
      (6/10) * ((fcl.length : ℚ) / (cll.length : ℚ))
    else
      let p := common_prefix_len cll.data fcl.data
      let s := common_suffix_len cll.data fcl.data
      if 2 < p ∨ 2 < s then
        (4/10) * (((p : ℚ) + (s : ℚ)) / (max cll.length fcl.length : ℚ))
      else 0

/-- The method `ModelUpdater._find_best_parameter_match`: exact key match,
then the first case-insensitive match, then the first parameter containing
the symbol, then the first parameter contained in the symbol. -/
def find_best_parameter_match (sym : String) (keys : List String) :
    Option String :=
  if sym ∈ keys then some sym
  else
    match keys.find? (fun p => pyLower p == pyLower sym) with
    | some p => some p
    | none =>
      match keys.find? (fun p => strIn (pyLower sym) (pyLower p)) with
      | some p => some p
      | none => keys.find? (fun p => strIn (pyLower p) (pyLower sym))

theorem startsChars_length_le :
    ∀ {n h : List Char}, startsChars n h = true → n.length ≤ h.length := by
  intro n
  induction n with
  | nil => intro h _; exact Nat.zero_le _
  | cons a as ih =>
    intro h hs
    cases h with
    | nil => simp [startsChars] at hs
    | cons b bs =>
      simp only [startsChars, Bool.and_eq_true] at hs
      simpa using ih hs.2

theorem subChars_length_le :
    ∀ {h : List Char} {n : List Char}, subChars n h = true →
      n.length ≤ h.length := by
  intro h
  induction h with
  | nil =>
    intro n hs
    simp only [subChars] at hs
    exact startsChars_length_le hs
  | cons c cs ih =>
    intro n hs
    simp only [subChars, Bool.or_eq_true] at hs
    rcases hs with hs | hs
    · exact startsChars_length_le hs
    · exact Nat.le_succ_of_le (ih hs)

theorem common_prefix_len_le_left :
    ∀ (a b : List Char), common_prefix_len a b ≤ a.length := by
  intro a
  induction a with
  | nil => intro b; simp [common_prefix_len]
  | cons x xs ih =>
    intro b
    cases b with
    | nil => simp [common_prefix_len]
    | cons y ys =>
      simp only [common_prefix_len]
      by_cases hxy : x == y
      · simp only [hxy, if_pos]
        simpa [Nat.succ_le_succ_iff] using ih ys
      · simp [hxy]

theorem common_prefix_len_le_right :
    ∀ (a b : List Char), common_prefix_len a b ≤ b.length := by
  intro a
  induction a with
  | nil => intro b; simp [common_prefix_len]
  | cons x xs ih =>
    intro b
    cases b with
    | nil => simp [common_prefix_len]
    | cons y ys =>
      simp only [common_prefix_len]
      by_cases hxy : x == y
      · simp only [hxy, if_pos]
        simpa [Nat.succ_le_succ_iff] using ih ys
      · simp [hxy]

theorem ratio_le_one {a b : ℕ} (h : a ≤ b) : (a : ℚ) / (b : ℚ) ≤ 1 := by
  rcases Nat.eq_zero_or_pos b with hb | hb
  · subst hb
    interval_cases a
    simp
  · rw [div_le_one (by exact_mod_cast hb)]
    exact_mod_cast h

theorem ratio_le_two {a b : ℕ} (h : a ≤ 2 * b) : (a : ℚ) / (b : ℚ) ≤ 2 := by
  rcases Nat.eq_zero_or_pos b with hb | hb
  · subst hb
    simp only [Nat.mul_zero, Nat.le_zero] at h
    subst h
    simp
  · rw [div_le_iff₀ (by exact_mod_cast hb)]
    exact_mod_cast h

theorem calculate_match_score_le (s p : String) (h : s ≠ p) :
    calculate_match_score s p ≤ 9/10 := by
  unfold calculate_match_score
  rw [if_neg h]
  by_cases hci : pyLower s = pyLower p
  · rw [if_pos hci]
  · rw [if_neg hci]
    by_cases h1 : strIn (pyLower s) (pyLower p)
    · simp only [h1, if_pos]
      have hlen : (pyLower s).length ≤ (pyLower p).length :=
        subChars_length_le h1
      have hr1 : ((pyLower s).length : ℚ) / ((pyLower p).length : ℚ) ≤ 1 :=
        ratio_le_one hlen
      have hr0 : (0 : ℚ) ≤ ((pyLower s).length : ℚ) / ((pyLower p).length : ℚ) := by
        positivity
      nlinarith
    · simp only [h1, Bool.false_eq_true, if_neg, if_false]
      by_cases h2 : strIn (pyLower p) (pyLower s)
      · simp only [h2, if_pos]
        have hlen : (pyLower p).length ≤ (pyLower s).length :=
          subChars_length_le h2
        have hr1 : ((pyLower p).length : ℚ) / ((pyLower s).length : ℚ) ≤ 1 :=
          ratio_le_one hlen
        have hr0 : (0 : ℚ) ≤ ((pyLower p).length : ℚ) / ((pyLower s).length : ℚ) := by
          positivity
        nlinarith
      · simp only [h2, Bool.false_eq_true, if_neg, if_false]
        by_cases h3 : 2 < common_prefix_len (pyLower s).data (pyLower p).data ∨
            2 < common_suffix_len (pyLower s).data (pyLower p).data
        · rw [if_pos h3]
          set a := (pyLower s).length with ha
          set b := (pyLower p).length with hb
          have hp : common_prefix_len (pyLower s).data (pyLower p).data ≤
              max a b := le_trans (common_prefix_len_le_left _ _)
            (le_max_left a b)
          have hsx : common_suffix_len (pyLower s).data (pyLower p).data ≤
              max a b := by
            unfold common_suffix_len
            refine le_trans (common_prefix_len_le_right _ _) ?_
            rw [List.length_reverse]
            exact le_max_right a b
          have hsum : common_prefix_len (pyLower s).data (pyLower p).data +
              common_suffix_len (pyLower s).data (pyLower p).data ≤
              2 * max a b := by omega
          have hr2 :
              ((common_prefix_len (pyLower s).data (pyLower p).data +
                common_suffix_len (pyLower s).data (pyLower p).data : ℕ) : ℚ) /
                ((max a b : ℕ) : ℚ) ≤ 2 := ratio_le_two hsum
          have hr0 :
              (0 : ℚ) ≤
              ((common_prefix_len (pyLower s).data (pyLower p).data +
                common_suffix_len (pyLower s).data (pyLower p).data : ℕ) : ℚ) /
                ((max a b : ℕ) : ℚ) := by positivity
          push_cast at hr2 hr0 ⊢
          nlinarith
        · rw [if_neg h3]
          norm_num

/-- C8: a CalcsLive symbol that is itself a key of the extracted-parameters
dictionary is matched to that exact name by _find_best_parameter_match, and
_calculate_match_score gives an exact match the score 1.0, strictly greater
than the score of every non-identical parameter name, all of which score at
most 0.9. -/
theorem c8_exact_match_preferred :
    (∀ (sym : String) (keys : List String), sym ∈ keys →
        find_best_parameter_match sym keys = some sym) ∧
    (∀ s : String, calculate_match_score s s = 1) ∧
    (∀ s p : String, s ≠ p →
        calculate_match_score s p ≤ 9/10 ∧
        calculate_match_score s p < calculate_match_score s s) := by
  refine ⟨?_, ?_, ?_⟩
  · intro sym keys hmem
    unfold find_best_parameter_match
    rw [if_pos hmem]
  · intro s
    unfold calculate_match_score
    simp
  · intro s p h
    refine ⟨calculate_match_score_le s p h, ?_⟩
    have h1 : calculate_match_score s s = 1 := by
      unfold calculate_match_score
      simp
    have h2 := calculate_match_score_le s p h
    rw [h1]
    linarith

/-- C8 witness: the three parts of `c8_exact_match_preferred` discharged at
the concrete symbol V against the parameter list r, V. -/
theorem c8_exact_match_preferred_witness :
    find_best_parameter_match "V" ["r", "V"] = some "V" ∧
    (calculate_match_score "V" "r" ≤ 9/10 ∧
      calculate_match_score "V" "r" < calculate_match_score "V" "V") :=
  ⟨c8_exact_match_preferred.1 "V" ["r", "V"] (by decide),
   c8_exact_match_preferred.2.2 "V" "r" (by decide)⟩

/-! ## FreeCAD document model (host state seen by the plug server)

The live FreeCAD object graph is embedded as explicit data: a document is
its label, file name and object list; an object carries its internal Name,
its user Label, its TypeId, its property list with values, and its
ExpressionEngine binding list.  Host property values are embedded as the
observations the plug code makes of them. -/

/-- A JSON number as the import endpoint receives it: its numeric value and
the string Python `str()` renders it as. -/
structure JNum where
  val : ℚ
  repr : String
  deriving DecidableEq

/-- A JSON scalar reaching `apply_updates` as an update value. -/
inductive JVal where
  | num (n : JNum)
  | str (s : String)
  | null
  deriving DecidableEq

/-- Python `str()` of an update value. -/
def JVal.pyStr : JVal → String
  | .num n => n.repr
  | .str s => s
  | .null => "None"

/-- A value written by the server: either `Units.Quantity(s)` parsed from a
string, or `Units.Quantity(float(x), kindObject)` built by `to_quantity`. -/
inductive NewValue where
  | parsed (s : String)
  | ofKind (x : ℚ) (kind : String)
  deriving DecidableEq

/-- The kinds named in the `_kind_to_units_kind` table. -/
def KIND_TABLE : List String :=
  ["Length", "Angle", "Area", "Volume", "Mass", "Velocity", "Acceleration",
   "Pressure", "Force", "Power", "Density"]

/-- The function `_kind_to_units_kind`: table lookup with `Units.Length` as
the default; the embedded result is the kind name selecting that object. -/
def kind_to_units_kind (kind : String) : String :=
  if KIND_TABLE.contains kind then kind else "Length"

/-- The function `to_quantity`.  A JSON update value is never already a host
Quantity, so the first branch of the Python function is unreachable here;
numbers take the `Units.Quantity(float(value), kind)` branch and anything
else is rendered with `str` and parsed. -/
def to_quantity (value : JVal) (kind : String) : NewValue :=
  match value with
  | .num n => .ofKind n.val (kind_to_units_kind kind)
  | v => .parsed v.pyStr

/-- A host Quantity as the export code observes it: its `Value` attribute,
the rendering of its `Unit` attribute, and the string
`Units.schemaTranslate` formats for it under the user schema. -/
structure Quantity where
  value : ℚ
  unitRepr : String
  schemaDisplay : String
  deriving DecidableEq

/-- A host property value, classified by the observations the plug makes:
`quantity` carries a `Value` attribute, `str` is a Python string, `num` is a
plain number accepted by `float()`, `nonNumeric` is any other value on
which `float()` raises, and `written` is a value stored by an import
write. -/
inductive PropValue where
  | quantity (q : Quantity)
  | str (s : String)
  | num (x : ℚ)
  | nonNumeric
  | written (nv : NewValue)
  deriving DecidableEq

/-- One named property of a document object, with the result of
`getTypeIdOfProperty` (`none` models that call raising). -/
structure VarProp where
  name : String
  value : PropValue
  propType : Option String
  deriving DecidableEq

/-- A document object: internal Name, user Label, TypeId, property list in
`PropertiesList` order, and the `ExpressionEngine` binding list. -/
structure DocObj where
  Name : String
  Label : String
  TypeId : String
  props : List VarProp
  exprEngine : List (String × String)
  deriving DecidableEq

/-- A FreeCAD document. -/
structure Doc where
  Label : String
  FileName : Option String
  Objects : List DocObj
  deriving DecidableEq

/-- Python exceptions raised by the embedded operations. -/
inductive PyErr where
  | valueError (msg : String)
  | runtimeError (msg : String)
  | typeError (msg : String)
  | indexError (msg : String)
  | attributeError (msg : String)
  deriving DecidableEq

/-- Python `str(e)` on an exception: its message. -/
def PyErr.str : PyErr → String
  | .valueError m => m
  | .runtimeError m => m
  | .typeError m => m
  | .indexError m => m
  | .attributeError m => m

/-- Host `doc.getObject(name)`: lookup by internal Name. -/
def Doc.getObject (doc : Doc) (name : String) : Option DocObj :=
  doc.Objects.find? (fun o => o.Name == name)

/-- Host `obj.getExpression(prop)`: the ExpressionEngine binding when one
exists. -/
def DocObj.getExpression (o : DocObj) (prop : String) : Option String :=
  (o.exprEngine.find? (fun p => p.1 == prop)).map (fun p => p.2)

/-- The function `has_expression`: every modelled object has an
ExpressionEngine attribute, so the first guarded branch is taken. -/
def has_expression (o : DocObj) (prop : String) : Bool :=
  (o.getExpression prop).isSome

/-- Host `setattr(obj, prop, v)` on the property list: replace the first
entry of that name, or add the property when absent. -/
def setPropList : List VarProp → String → PropValue → List VarProp
  | [], p, nv => [{ name := p, value := nv, propType := none }]
  | vp :: rest, p, nv =>
    if vp.name == p then { vp with value := nv } :: rest
    else vp :: setPropList rest p nv

/-- Host `setattr` on a document: update the named object in place. -/
def Doc.setObjProp (doc : Doc) (objName prop : String) (nv : PropValue) :
    Doc :=
  { doc with
    Objects := doc.Objects.map (fun o =>
      if o.Name == objName then { o with props := setPropList o.props prop nv }
      else o) }

/-- What a successful `write_path` call wrote where.  The Spreadsheet branch
of the source stores the display rendering of the quantity through
`obj.set`; both branches are recorded as storing the built value, with
`viaSheet` remembering which branch ran. -/
structure WriteAction where
  objName : String
  prop : String
  q : NewValue
  viaSheet : Bool
  deriving DecidableEq

/-- Python truthiness of the optional `unit` argument: `None` and the empty
string are falsy. -/
def unitTruthy : Option String → Bool
  | some u => u ≠ ""
  | none => false

/-- The object-name computation of `write_path`: when the path contains a
colon anywhere, the part before the first slash is truncated at its first
colon by `obj_name_part.split(":")[0]`; otherwise it is used whole. -/
def resolveObjName (path obj_name_part : String) : String :=
  if strIn ":" path then (pySplitCh obj_name_part ':').headD ""
  else obj_name_part

/-- The quantity `write_path` builds: `Units.Quantity(f"{value} {unit}")`
when a truthy unit is supplied, otherwise `to_quantity(value, kind)`. -/
def buildQ (value : JVal) (unit : Option String) (kind : String) : NewValue :=
  if unitTruthy unit then
    NewValue.parsed (value.pyStr ++ " " ++ unit.getD "")
  else to_quantity value kind

/-- The function `write_path` of src/calcslive-freecad-plug-server.py. -/
def write_path (doc : Doc) (path : String) (value : JVal)
    (unit : Option String) (kind : String)
    (allow_override_expression : Bool) : Except PyErr (Doc × WriteAction) :=
  match pySplitOnce path '/' with
  | none => .error (.valueError "not enough values to unpack (expected 2, got 1)")
  | some (obj_name_part, prop) =>
    match doc.getObject (resolveObjName path obj_name_part) with
    | none =>
      .error (.valueError
        ("Object not found: " ++ resolveObjName path obj_name_part))
    | some obj =>
      if has_expression obj prop && !allow_override_expression then
        .error (.runtimeError
          (path ++ " is expression-driven; refusing to overwrite."))
      else
        .ok (doc.setObjProp (resolveObjName path obj_name_part) prop
            (.written (buildQ value unit kind)),
          { objName := resolveObjName path obj_name_part, prop := prop,
            q := buildQ value unit kind,
            viaSheet := obj.TypeId == "Spreadsheet::Sheet" })

/-- One entry of the `updates` array of a POST /calcslive/import body. -/
structure Update where
  name : Option String
  path : Option String
  value : JVal
  unit : Option String
  pqKind : Option String
  deriving DecidableEq

/-- Python `a or b` on two optional strings: `None` and `""` are falsy. -/
def pyOrStr : Option String → Option String → Option String
  | some s, b => if s = "" then b else some s
  | none, b => b

/-- The path `apply_updates` uses for an update:
`upd.get("name") or upd.get("path")`. -/
def Update.effPath (u : Update) : Option String := pyOrStr u.name u.path

/-- One call of `write_path` as `apply_updates` performs it, including the
exceptions its argument handling raises before `write_path` proper runs:
with no usable path the membership test `":" in None` raises TypeError, and
with no document the `doc.getObject` attribute access raises. -/
def writeUpdate (doc : Option Doc) (u : Update) (allow : Bool) :
    Except PyErr (Doc × WriteAction) :=
  match u.effPath with
  | none => .error (.typeError "argument of type NoneType is not iterable")
  | some path =>
    match doc with
    | none =>
      match pySplitOnce path '/' with
      | none =>
        .error (.valueError "not enough values to unpack (expected 2, got 1)")
      | some _ =>
        .error (.attributeError "NoneType object has no attribute getObject")
    | some d => write_path d path u.value u.unit (u.pqKind.getD "Length") allow

/-- An element of the `applied` list of the import response. -/
structure AppliedEntry where
  name : String
  value : JVal
  unit : Option String
  deriving DecidableEq

/-- An element of the `errors` list of the import response. -/
structure ErrorEntry where
  name : Option String
  error : String
  deriving DecidableEq

/-- The value returned by `apply_updates`, together with the document state
it leaves behind. -/
structure ApplyResult where
  applied : List AppliedEntry
  errors : List ErrorEntry
  doc : Option Doc
  deriving DecidableEq

/-- The function `apply_updates`: each update is attempted through
`write_path`; a success appends to `applied`, any exception is caught and
appended to `errors`.  The final `doc.recompute()` does not change the
embedded state. -/
def apply_updates (updates : List Update) (doc : Option Doc)
    (allow_override_expression : Bool) : ApplyResult :=
  match updates with
  | [] => { applied := [], errors := [], doc := doc }
  | u :: rest =>
    match writeUpdate doc u allow_override_expression with
    | .ok (d2, _) =>
      let r := apply_updates rest (some d2) allow_override_expression
      { applied :=
          { name := u.effPath.getD "", value := u.value, unit := u.unit } ::
            r.applied,
        errors := r.errors, doc := r.doc }
    | .error e =>
      let r := apply_updates rest doc allow_override_expression
      { applied := r.applied,
        errors := { name := u.effPath, error := e.str } :: r.errors,
        doc := r.doc }

/-- The body of a POST /calcslive/import request as `do_POST` reads it:
the `updates` array and the optional `allowOverrideExpression` flag, which
`bool(data.get(..., False))` turns into `false` when absent. -/
structure ImportRequest where
  updates : List Update
  allowOverrideExpression : Option Bool
  deriving DecidableEq

/-- The import branch of `do_POST`: run `apply_updates` on the active
document and answer 200 with its result. -/
def handle_import (doc : Option Doc) (req : ImportRequest) :
    Nat × ApplyResult :=
  (200, apply_updates req.updates doc (req.allowOverrideExpression.getD false))

/-! ## Path resolution facts (claim C6) -/

/-- The text of a string before its first occurrence of `c`, the whole
string when `c` is absent. -/
def firstSegChars (c : Char) : List Char → List Char
  | [] => []
  | x :: xs => if x == c then [] else x :: firstSegChars c xs

/-- The text of a path segment before the first colon, the whole segment
when it has no colon. -/
def truncAtColon (s : String) : String :=
  match pySplitOnce s ':' with
  | some p => p.1
  | none => s

/-- The target of a path string, resolved exactly as `write_path` resolves
it but without a document: object name and property name. -/
def parseTarget (path : String) : Option (String × String) :=
  match pySplitOnce path '/' with
  | none => none
  | some (a, b) => some (resolveObjName path a, b)

theorem firstSeg_spec (c : Char) :
    ∀ l : List Char,
      (match splitOnceChars c l with
        | some p => p.1
        | none => l) = firstSegChars c l := by
  intro l
  induction l with
  | nil => rfl
  | cons x xs ih =>
    by_cases hx : (x == c) = true
    · simp [splitOnceChars, firstSegChars, hx]
    · have hx' : (x == c) = false := by simpa using hx
      simp only [splitOnceChars, firstSegChars, hx', Bool.false_eq_true,
        if_false]
      cases hs : splitOnceChars c xs with
      | none => rw [hs] at ih; simpa using ih
      | some p => rw [hs] at ih; simpa using ih

theorem splitChChars_head (c : Char) :
    ∀ l : List Char, ∃ t, splitChChars c l = firstSegChars c l :: t := by
  intro l
  induction l with
  | nil => exact ⟨[], rfl⟩
  | cons x xs ih =>
    obtain ⟨t, ht⟩ := ih
    by_cases hx : (x == c) = true
    · exact ⟨splitChChars c xs, by simp [splitChChars, firstSegChars, hx]⟩
    · have hx' : (x == c) = false := by simpa using hx
      refine ⟨t, ?_⟩
      simp only [splitChChars, firstSegChars, hx', Bool.false_eq_true,
        if_false]
      rw [ht]

theorem subChars_singleton (c : Char) :
    ∀ l : List Char, subChars [c] l = true ↔ c ∈ l := by
  intro l
  induction l with
  | nil =>
    constructor
    · intro h
      exact absurd h (by exact Bool.false_ne_true)
    · intro h
      exact absurd h (List.not_mem_nil c)
  | cons x xs ih =>
    have hred : subChars [c] (x :: xs) =
        ((c == x && startsChars [] xs) || subChars [c] xs) := rfl
    rw [hred]
    have hs0 : startsChars [] xs = true := rfl
    rw [hs0]
    simp only [Bool.and_true, Bool.or_eq_true, List.mem_cons, ih, beq_iff_eq]

theorem splitOnceChars_eq_none (c : Char) :
    ∀ l : List Char, c ∉ l → splitOnceChars c l = none := by
  intro l
  induction l with
  | nil => intro _; rfl
  | cons x xs ih =>
    intro hmem
    simp only [List.mem_cons, not_or] at hmem
    have hx : (x == c) = false :=
      beq_eq_false_iff_ne.mpr (fun hh => hmem.1 hh.symm)
    simp [splitOnceChars, hx, ih hmem.2]

theorem splitOnceChars_append (c : Char) :
    ∀ {l a b : List Char}, splitOnceChars c l = some (a, b) →
      l = a ++ c :: b := by
  intro l
  induction l with
  | nil => intro a b h; simp [splitOnceChars] at h
  | cons x xs ih =>
    intro a b h
    by_cases hx : (x == c) = true
    · simp only [splitOnceChars, hx, if_pos] at h
      obtain ⟨rfl, rfl⟩ := Prod.mk.injEq .. ▸ (Option.some.injEq .. ▸ h)
      simp [show x = c from by simpa using hx]
    · have hx' : (x == c) = false := by simpa using hx
      simp only [splitOnceChars, hx', Bool.false_eq_true, if_false] at h
      cases hs : splitOnceChars c xs with
      | none => rw [hs] at h; simp at h
      | some p =>
        rw [hs] at h
        simp only [Option.map_some', Option.some.injEq] at h
        obtain ⟨a0, b0⟩ := p
        have h1 : x :: a0 = a := congrArg Prod.fst h
        have h2 : b0 = b := congrArg Prod.snd h
        subst h1
        subst h2
        simpa using congrArg (List.cons x) (ih hs)

/-- The conditional object-name computation of `write_path` is exactly:
take the text before the first slash and truncate it at its first colon
when one is present. -/
theorem resolveObjName_eq_truncAtColon (path pre rest : String)
    (h : pySplitOnce path '/' = some (pre, rest)) :
    resolveObjName path pre = truncAtColon pre := by
  unfold resolveObjName
  by_cases hc : strIn ":" path = true
  · rw [if_pos hc]
    obtain ⟨t, ht⟩ := splitChChars_head ':' pre.data
    unfold pySplitCh
    rw [ht]
    simp only [List.map_cons, List.headD_cons]
    unfold truncAtColon pySplitOnce
    have := firstSeg_spec ':' pre.data
    cases hs : splitOnceChars ':' pre.data with
    | none =>
      rw [hs] at this
      simp only [hs, Option.map_none']
      rw [← this]
    | some p =>
      rw [hs] at this
      simp only [hs, Option.map_some']
      rw [← this]
  · have hc' : strIn ":" path = false := by simpa using hc
    rw [if_neg (by simp [hc'])]
    have hnotin : ':' ∉ path.data := by
      intro hmem
      have := (subChars_singleton ':' path.data).mpr hmem
      rw [show subChars [':'] path.data = strIn ":" path from rfl, hc'] at this
      exact Bool.false_ne_true this
    unfold pySplitOnce at h
    cases hs : splitOnceChars '/' path.data with
    | none => rw [hs] at h; simp at h
    | some p =>
      rw [hs] at h
      simp only [Option.map_some', Option.some.injEq] at h
      have hpre : String.mk p.1 = pre := congrArg Prod.fst h
      have hdata : path.data = p.1 ++ '/' :: p.2 :=
        splitOnceChars_append '/' (by rw [hs])
      have hnotpre : ':' ∉ pre.data := by
        rw [← hpre]
        intro hmem
        exact hnotin (by rw [hdata]; exact List.mem_append_left _ hmem)
      unfold truncAtColon pySplitOnce
      rw [splitOnceChars_eq_none ':' pre.data hnotpre]
      rfl

/-- C6: write_path resolves its target from the path string: the text
before the first slash, truncated at a colon when one is present, names
the object looked up with doc.getObject and the remainder names the
property; when the object is missing it raises ValueError, and when a
truthy unit is supplied the new value is the quantity parsed from the
concatenation of the value and the unit separated by a space. -/
theorem c6_write_path_resolution (doc : Doc) (path : String) (value : JVal)
    (unit : Option String) (kind : String) (allow : Bool)
    (pre rest : String) (h : pySplitOnce path '/' = some (pre, rest)) :
    (doc.getObject (truncAtColon pre) = none →
        write_path doc path value unit kind allow =
          .error (.valueError ("Object not found: " ++ truncAtColon pre))) ∧
    (∀ d2 act, write_path doc path value unit kind allow = .ok (d2, act) →
        act.objName = truncAtColon pre ∧ act.prop = rest ∧
        (unitTruthy unit = true →
          act.q = .parsed (value.pyStr ++ " " ++ unit.getD ""))) := by
  have hres := resolveObjName_eq_truncAtColon path pre rest h
  constructor
  · intro hnone
    unfold write_path
    rw [h]
    simp only [hres, hnone]
  · intro d2 act hok
    unfold write_path at hok
    rw [h] at hok
    simp only [hres] at hok
    cases hg : doc.getObject (truncAtColon pre) with
    | none => rw [hg] at hok; simp at hok
    | some obj =>
      simp only [hg] at hok
      by_cases hguard :
          (has_expression obj rest && !allow) = true
      · rw [if_pos hguard] at hok; simp at hok
      · rw [if_neg hguard] at hok
        simp only [Except.ok.injEq, Prod.mk.injEq] at hok
        have hact := hok.2
        refine ⟨?_, ?_, ?_⟩
        · rw [← hact]
        · rw [← hact]
        · intro hu
          rw [← hact]
          simp only [buildQ, hu, if_pos]

/-- C6 witness: the two parts of `c6_write_path_resolution` discharged on a
concrete document, one for a missing object and one for a successful write
with a supplied unit. -/
theorem c6_write_path_resolution_witness :
    (write_path (Doc.mk "d" none [])
        "VarSet:PQs/Base_H" (JVal.num (JNum.mk 5 "5")) (some "mm")
        "Length" false =
      .error (.valueError "Object not found: VarSet")) ∧
    (∀ d2 act,
        write_path
            (Doc.mk "d" none
              [DocObj.mk "VarSet" "PQs" "App::VarSet" [] []])
            "VarSet:PQs/Base_H" (JVal.num (JNum.mk 5 "5")) (some "mm")
            "Length" false = .ok (d2, act) →
        act.objName = "VarSet" ∧ act.prop = "Base_H" ∧
        (unitTruthy (some "mm") = true → act.q = .parsed "5 mm")) := by
  constructor
  · exact
      (c6_write_path_resolution (Doc.mk "d" none [])
        "VarSet:PQs/Base_H" (JVal.num (JNum.mk 5 "5")) (some "mm")
        "Length" false "VarSet:PQs" "Base_H" (by decide)).1 (by decide)
  · exact
      (c6_write_path_resolution
        (Doc.mk "d" none
          [DocObj.mk "VarSet" "PQs" "App::VarSet" [] []])
        "VarSet:PQs/Base_H" (JVal.num (JNum.mk 5 "5")) (some "mm")
        "Length" false "VarSet:PQs" "Base_H" (by decide)).2

/-! ## State observations and preservation (claims C1 and C10) -/

/-- The driving expression bound to a property of a named object, if any. -/
def Doc.exprAt (doc : Doc) (objName prop : String) : Option String :=
  (doc.getObject objName).bind (fun o => o.getExpression prop)

/-- The stored value of a property of a named object, if any. -/
def Doc.propValueAt (doc : Doc) (objName prop : String) : Option PropValue :=
  (doc.getObject objName).bind (fun o =>
    (o.props.find? (fun vp => vp.name == prop)).map (fun vp => vp.value))

theorem find?_map_name (l : List DocObj) (f : DocObj → DocObj)
    (hf : ∀ o, (f o).Name = o.Name) (n : String) :
    (l.map f).find? (fun o => o.Name == n) =
      (l.find? (fun o => o.Name == n)).map f := by
  induction l with
  | nil => rfl
  | cons o l ih =>
    simp only [List.map_cons]
    cases hpa : (o.Name == n) with
    | true =>
      have hfa : ((f o).Name == n) = true := by rw [hf]; exact hpa
      simp [List.find?, hpa, hfa]
    | false =>
      have hfa : ((f o).Name == n) = false := by rw [hf]; exact hpa
      simp [List.find?, hpa, hfa, ih]

theorem getObject_setObjProp (doc : Doc) (x y : String) (nv : PropValue)
    (n : String) :
    (doc.setObjProp x y nv).getObject n =
      (doc.getObject n).map (fun o =>
        if o.Name == x then { o with props := setPropList o.props y nv }
        else o) := by
  unfold Doc.setObjProp Doc.getObject
  refine find?_map_name _ _ (fun o => ?_) n
  by_cases h : (o.Name == x) = true <;> simp [h]

theorem exprAt_setObjProp (doc : Doc) (x y : String) (nv : PropValue)
    (n p : String) :
    (doc.setObjProp x y nv).exprAt n p = doc.exprAt n p := by
  unfold Doc.exprAt
  rw [getObject_setObjProp]
  cases doc.getObject n with
  | none => rfl
  | some o =>
    by_cases h : o.Name = x
    · simp [h, DocObj.getExpression]
    · simp [h, DocObj.getExpression]

theorem find?_setPropList_ne (props : List VarProp) (y : String)
    (nv : PropValue) (p : String) (hne : p ≠ y) :
    (setPropList props y nv).find? (fun vp => vp.name == p) =
      props.find? (fun vp => vp.name == p) := by
  induction props with
  | nil =>
    have hyp : (y == p) = false :=
      beq_eq_false_iff_ne.mpr (fun hh => hne hh.symm)
    simp [setPropList, List.find?, hyp]
  | cons vp rest ih =>
    simp only [setPropList]
    by_cases hv : (vp.name == y) = true
    · rw [if_pos hv]
      have hvp : vp.name = y := by simpa using hv
      have h1 : (vp.name == p) = false := by
        rw [hvp]
        exact beq_eq_false_iff_ne.mpr (fun hh => hne hh.symm)
      simp [List.find?, h1]
    · rw [if_neg hv]
      cases hp : (vp.name == p) with
      | true => simp [List.find?, hp]
      | false => simp [List.find?, hp, ih]

theorem propValueAt_setObjProp_ne (doc : Doc) (x y : String) (nv : PropValue)
    (n p : String) (h : ¬(n = x ∧ p = y)) :
    (doc.setObjProp x y nv).propValueAt n p = doc.propValueAt n p := by
  unfold Doc.propValueAt
  rw [getObject_setObjProp]
  cases hg : doc.getObject n with
  | none => rfl
  | some o =>
    have hn : o.Name = n := by
      have := List.find?_some hg
      simpa using this
    by_cases ho : (o.Name == x) = true
    · have hx : n = x := by rw [← hn]; simpa using ho
      have hpy : p ≠ y := fun hp => h ⟨hx, hp⟩
      simp only [ho, if_pos, Option.map_some', Option.some_bind]
      rw [find?_setPropList_ne o.props y nv p hpy]
    · have ho' : ¬ o.Name = x := by simpa using ho
      simp [ho']

theorem write_path_ok_spec (doc : Doc) (path : String) (v : JVal)
    (u : Option String) (k : String) {d2 : Doc} {act : WriteAction}
    (hok : write_path doc path v u k false = .ok (d2, act)) :
    parseTarget path = some (act.objName, act.prop) ∧
    doc.exprAt act.objName act.prop = none ∧
    d2 = doc.setObjProp act.objName act.prop (.written act.q) := by
  unfold write_path at hok
  cases hs : pySplitOnce path '/' with
  | none =>
    simp only [hs] at hok
    exact Except.noConfusion hok
  | some pr =>
    obtain ⟨a, b⟩ := pr
    simp only [hs] at hok
    cases hg : doc.getObject (resolveObjName path a) with
    | none =>
      simp only [hg] at hok
      exact Except.noConfusion hok
    | some obj =>
      simp only [hg] at hok
      by_cases hhe : has_expression obj b = true
      · rw [if_pos (by simp [hhe])] at hok
        simp at hok
      · rw [if_neg (by simp [hhe])] at hok
        simp only [Except.ok.injEq, Prod.mk.injEq] at hok
        obtain ⟨hd, ha⟩ := hok
        have hobj : act.objName = resolveObjName path a := by rw [← ha]
        have hprop : act.prop = b := by rw [← ha]
        have hq : act.q = buildQ v u k := by rw [← ha]
        refine ⟨?_, ?_, ?_⟩
        · unfold parseTarget
          rw [hs, hobj, hprop]
        · unfold Doc.exprAt
          rw [hobj, hprop, hg]
          simp only [Option.some_bind]
          cases hge : obj.getExpression b with
          | none => rfl
          | some e =>
            exfalso
            apply hhe
            unfold has_expression
            rw [hge]
            rfl
        · rw [← hd, hobj, hprop, hq]


theorem write_path_expr_err (doc : Doc) (path : String) (v : JVal)
    (u : Option String) (k : String) (N P : String)
    (hp : parseTarget path = some (N, P))
    (he : (doc.exprAt N P).isSome = true) :
    write_path doc path v u k false =
      .error (.runtimeError
        (path ++ " is expression-driven; refusing to overwrite.")) := by
  unfold parseTarget at hp
  cases hs : pySplitOnce path '/' with
  | none => rw [hs] at hp; simp at hp
  | some pr =>
    obtain ⟨a, b⟩ := pr
    rw [hs] at hp
    simp only [Option.some.injEq, Prod.mk.injEq] at hp
    obtain ⟨hN, hP⟩ := hp
    unfold Doc.exprAt at he
    cases hg : doc.getObject N with
    | none => rw [hg] at he; simp at he
    | some obj =>
      rw [hg] at he
      simp only [Option.some_bind] at he
      have hhe : has_expression obj P = true := by
        unfold has_expression
        exact he
      unfold write_path
      simp only [hs]
      rw [hN, hP]
      simp only [hg]
      rw [if_pos (by simp [hhe])]

theorem writeUpdate_eff (doc : Doc) (u : Update) (path : String)
    (hep : u.effPath = some path) (allow : Bool) :
    writeUpdate (some doc) u allow =
      write_path doc path u.value u.unit (u.pqKind.getD "Length") allow := by
  unfold writeUpdate
  simp only [hep]

theorem writeUpdate_ok (doc : Doc) (u : Update) {d1 : Doc}
    {act : WriteAction}
    (h : writeUpdate (some doc) u false = .ok (d1, act)) :
    ∃ path, u.effPath = some path ∧
      write_path doc path u.value u.unit (u.pqKind.getD "Length") false =
        .ok (d1, act) := by
  unfold writeUpdate at h
  cases hep : u.effPath with
  | none =>
    simp only [hep] at h
    exact Except.noConfusion h
  | some path =>
    simp only [hep] at h
    exact ⟨path, rfl, h⟩

theorem apply_updates_expr_inv (upds : List Update) :
    ∀ (doc : Doc) (N P : String), (doc.exprAt N P).isSome = true →
      (∃ d2, (apply_updates upds (some doc) false).doc = some d2 ∧
          d2.exprAt N P = doc.exprAt N P ∧
          d2.propValueAt N P = doc.propValueAt N P) ∧
      (∀ a ∈ (apply_updates upds (some doc) false).applied,
          parseTarget a.name ≠ some (N, P)) ∧
      (∀ u ∈ upds, ∀ p0, u.effPath = some p0 →
          parseTarget p0 = some (N, P) →
          (ErrorEntry.mk (some p0)
              (p0 ++ " is expression-driven; refusing to overwrite.")) ∈
            (apply_updates upds (some doc) false).errors) := by
  induction upds with
  | nil =>
    intro doc N P h
    refine ⟨⟨doc, rfl, rfl, rfl⟩, ?_, ?_⟩
    · intro a ha
      exact absurd ha (List.not_mem_nil a)
    · intro u hu
      exact absurd hu (List.not_mem_nil u)
  | cons u rest ih =>
    intro doc N P h
    cases hw : writeUpdate (some doc) u false with
    | ok pr =>
      obtain ⟨d1, act⟩ := pr
      obtain ⟨path, hep, hwp⟩ := writeUpdate_ok doc u hw
      obtain ⟨hpt, hexn, hd1⟩ :=
        write_path_ok_spec doc path u.value u.unit (u.pqKind.getD "Length") hwp
      have hne : ¬(act.objName = N ∧ act.prop = P) := by
        rintro ⟨h1, h2⟩
        rw [h1, h2] at hexn
        rw [hexn] at h
        exact Bool.false_ne_true h
      have hexpr1 : d1.exprAt N P = doc.exprAt N P := by
        rw [hd1]
        exact exprAt_setObjProp doc act.objName act.prop (.written act.q) N P
      have hval1 : d1.propValueAt N P = doc.propValueAt N P := by
        rw [hd1]
        exact propValueAt_setObjProp_ne doc act.objName act.prop
          (.written act.q) N P (fun hc => hne ⟨hc.1.symm, hc.2.symm⟩)
      have h1 : (d1.exprAt N P).isSome = true := by rw [hexpr1]; exact h
      obtain ⟨⟨d2, hd2, he2, hv2⟩, hap, herr⟩ := ih d1 N P h1
      simp only [apply_updates, hw]
      refine ⟨⟨d2, hd2, he2.trans hexpr1, hv2.trans hval1⟩, ?_, ?_⟩
      · intro a ha
        rcases List.mem_cons.mp ha with hhead | htail
        · rw [hhead]
          show parseTarget (u.effPath.getD "") ≠ some (N, P)
          rw [hep]
          show parseTarget path ≠ some (N, P)
          rw [hpt]
          intro hc
          simp only [Option.some.injEq, Prod.mk.injEq] at hc
          exact hne hc
        · exact hap a htail
      · intro u2 hu2 p0 hep0 hpt0
        rcases List.mem_cons.mp hu2 with hhead | htail
        · exfalso
          rw [hhead] at hep0
          rw [hep0] at hep
          have hpp : p0 = path := by simpa using hep
          subst hpp
          rw [hpt0] at hpt
          simp only [Option.some.injEq, Prod.mk.injEq] at hpt
          exact hne ⟨hpt.1.symm, hpt.2.symm⟩
        · exact herr u2 htail p0 hep0 hpt0
    | error e =>
      obtain ⟨⟨d2, hd2, he2, hv2⟩, hap, herr⟩ := ih doc N P h
      simp only [apply_updates, hw]
      refine ⟨⟨d2, hd2, he2, hv2⟩, hap, ?_⟩
      intro u2 hu2 p0 hep0 hpt0
      rcases List.mem_cons.mp hu2 with hhead | htail
      · rw [hhead] at hep0
        have hwerr : writeUpdate (some doc) u false =
            .error (.runtimeError
              (p0 ++ " is expression-driven; refusing to overwrite.")) := by
          rw [writeUpdate_eff doc u p0 hep0 false]
          exact write_path_expr_err doc p0 u.value u.unit
            (u.pqKind.getD "Length") N P hpt0 h
        rw [hw] at hwerr
        have he : e = .runtimeError
            (p0 ++ " is expression-driven; refusing to overwrite.") := by
          simpa using hwerr
        rw [hep0, he]
        exact List.mem_cons_self _ _
      · exact List.mem_cons_of_mem _ (herr u2 htail p0 hep0 hpt0)

/-- C1: for every update of a POST /calcslive/import request whose
allowOverrideExpression flag is false or absent, if the targeted property
is driven by an expression then write_path raises before writing, the
stored value of that property is unchanged by the whole request, and the
update is reported in the errors list of the response, never in its
applied list. -/
theorem c1_expression_guard (doc : Doc) (req : ImportRequest) (u : Update)
    (p0 N P : String) (hu : u ∈ req.updates)
    (hflag : req.allowOverrideExpression = none ∨
      req.allowOverrideExpression = some false)
    (hep : u.effPath = some p0) (hpt : parseTarget p0 = some (N, P))
    (hex : (doc.exprAt N P).isSome = true) :
    writeUpdate (some doc) u false =
      .error (.runtimeError
        (p0 ++ " is expression-driven; refusing to overwrite.")) ∧
    (ErrorEntry.mk (some p0)
        (p0 ++ " is expression-driven; refusing to overwrite.")) ∈
      (handle_import (some doc) req).2.errors ∧
    (∀ a ∈ (handle_import (some doc) req).2.applied, a.name ≠ p0) ∧
    (∃ d2, (handle_import (some doc) req).2.doc = some d2 ∧
      d2.propValueAt N P = doc.propValueAt N P) := by
  have hallow : req.allowOverrideExpression.getD false = false := by
    rcases hflag with hf | hf <;> rw [hf] <;> rfl
  have hres : (handle_import (some doc) req).2 =
      apply_updates req.updates (some doc) false := by
    unfold handle_import
    rw [hallow]
  obtain ⟨⟨d2, hd2, he2, hv2⟩, hap, herr⟩ :=
    apply_updates_expr_inv req.updates doc N P hex
  rw [hres]
  refine ⟨?_, herr u hu p0 hep hpt, ?_, ⟨d2, hd2, hv2⟩⟩
  · rw [writeUpdate_eff doc u p0 hep false]
    exact write_path_expr_err doc p0 u.value u.unit (u.pqKind.getD "Length")
      N P hpt hex
  · intro a ha hnme
    exact hap a ha (by rw [hnme]; exact hpt)

/-- C1 witness: the guard discharged on a concrete document whose VarSet
property Base_H is expression-driven, with the flag absent. -/
theorem c1_expression_guard_witness :
    (ErrorEntry.mk (some "VarSet:PQs/Base_H")
        ("VarSet:PQs/Base_H is expression-driven; refusing to overwrite.")) ∈
      (handle_import
        (some (Doc.mk "d" none
          [DocObj.mk "VarSet" "PQs" "App::VarSet"
            [VarProp.mk "Base_H" (.quantity (Quantity.mk 5 "Unit: mm" "5 mm"))
              (some "App::PropertyLength")]
            [("Base_H", "<<Sketch>>.Constraints.h")]]))
        (ImportRequest.mk
          [Update.mk (some "VarSet:PQs/Base_H") none
            (JVal.num (JNum.mk 7 "7")) (some "mm") none]
          none)).2.errors ∧
    (∀ a ∈ (handle_import
        (some (Doc.mk "d" none
          [DocObj.mk "VarSet" "PQs" "App::VarSet"
            [VarProp.mk "Base_H" (.quantity (Quantity.mk 5 "Unit: mm" "5 mm"))
              (some "App::PropertyLength")]
            [("Base_H", "<<Sketch>>.Constraints.h")]]))
        (ImportRequest.mk
          [Update.mk (some "VarSet:PQs/Base_H") none
            (JVal.num (JNum.mk 7 "7")) (some "mm") none]
          none)).2.applied, a.name ≠ "VarSet:PQs/Base_H") := by
  have h := c1_expression_guard
    (Doc.mk "d" none
      [DocObj.mk "VarSet" "PQs" "App::VarSet"
        [VarProp.mk "Base_H" (.quantity (Quantity.mk 5 "Unit: mm" "5 mm"))
          (some "App::PropertyLength")]
        [("Base_H", "<<Sketch>>.Constraints.h")]])
    (ImportRequest.mk
      [Update.mk (some "VarSet:PQs/Base_H") none
        (JVal.num (JNum.mk 7 "7")) (some "mm") none]
      none)
    (Update.mk (some "VarSet:PQs/Base_H") none
      (JVal.num (JNum.mk 7 "7")) (some "mm") none)
    "VarSet:PQs/Base_H" "VarSet" "Base_H"
    (List.mem_singleton.mpr rfl) (Or.inl rfl) (by decide) (by decide)
    (by decide)
  exact ⟨h.2.1, h.2.2.1⟩

/-- C10: every update passed to apply_updates contributes exactly one entry
to either the applied list or the errors list, so their lengths sum to the
number of updates, and a failing update leaves the remaining updates to be
processed against the same document state. -/
theorem c10_partition :
    (∀ (upds : List Update) (doc : Option Doc) (allow : Bool),
        (apply_updates upds doc allow).applied.length +
          (apply_updates upds doc allow).errors.length = upds.length) ∧
    (∀ (u : Update) (rest : List Update) (doc : Option Doc) (allow : Bool)
        (e : PyErr), writeUpdate doc u allow = .error e →
      apply_updates (u :: rest) doc allow =
        { applied := (apply_updates rest doc allow).applied,
          errors := ErrorEntry.mk u.effPath e.str ::
            (apply_updates rest doc allow).errors,
          doc := (apply_updates rest doc allow).doc }) := by
  constructor
  · intro upds
    induction upds with
    | nil => intro doc allow; rfl
    | cons u rest ih =>
      intro doc allow
      cases hw : writeUpdate doc u allow with
      | ok pr =>
        obtain ⟨d1, act⟩ := pr
        have := ih (some d1) allow
        simp only [apply_updates, hw, List.length_cons]
        omega
      | error e =>
        have := ih doc allow
        simp only [apply_updates, hw, List.length_cons]
        omega
  · intro u rest doc allow e hw
    simp only [apply_updates, hw]

/-- C10 witness: the failure clause of `c10_partition` discharged on a
concrete update carrying neither a name nor a path, together with the
length equation it implies for a one-element request. -/
theorem c10_partition_witness :
    apply_updates [Update.mk none none JVal.null none none] none false =
      { applied := [],
        errors := [ErrorEntry.mk none
          "argument of type NoneType is not iterable"],
        doc := none } ∧
    (apply_updates [Update.mk none none JVal.null none none]
        none false).applied.length +
      (apply_updates [Update.mk none none JVal.null none none]
        none false).errors.length = 1 := by
  constructor
  · exact c10_partition.2 (Update.mk none none JVal.null none none) [] none
      false (.typeError "argument of type NoneType is not iterable") rfl
  · exact c10_partition.1 [Update.mk none none JVal.null none none] none false

/-! ## VarSet lookup and export (claims C2, C7, C9)

src/calcslive-freecad-plug-server.py lines 32 to 263. -/

/-- A single-quote string, used verbatim in the source error messages. -/
def sq : String := String.singleton (Char.ofNat 39)

/-- The search loop of `get_varset_object`: first object whose TypeId is
App::VarSet and whose Label is exactly PQs. -/
def findVarsetLoop : List DocObj → Option DocObj
  | [] => none
  | o :: rest =>
    if o.TypeId == "App::VarSet" && o.Label == "PQs" then some o
    else findVarsetLoop rest

/-- The `varsets_found` diagnostic list built when the lookup fails. -/
def varsetsFoundList (objs : List DocObj) : List String :=
  (objs.filter (fun o => o.TypeId == "App::VarSet")).map
    (fun o => "Name=" ++ sq ++ o.Name ++ sq ++ ", Label=" ++ sq ++ o.Label ++ sq)

/-- The error message `get_varset_object` raises when no VarSet labeled PQs
exists. -/
def varsetErrMsg (d : Doc) : String :=
  let base := "No VarSet found with Label=" ++ sq ++ "PQs" ++ sq
  let found := varsetsFoundList d.Objects
  if found.isEmpty then base
  else base ++ ". Found VarSets: " ++ String.intercalate ", " found

/-- The function `get_varset_object`; its caller passes the effective
document, which the Python default `doc or App.ActiveDocument` selects. -/
def get_varset_object (doc : Option Doc) : Except PyErr DocObj :=
  match doc with
  | none =>
    .error (.runtimeError "No active document. Create/open a document first.")
  | some d =>
    match findVarsetLoop d.Objects with
    | some v => .ok v
    | none => .error (.runtimeError (varsetErrMsg d))

/-- The `skip_props` set of `export_payload`, in source order. -/
def skip_props : List String :=
  ["Label", "Label2", "Name", "Visibility", "Content", "ExpressionEngine",
   "Document", "Module", "TypeId", "ID", "State", "ViewObject", "FullName",
   "InList", "OutList", "Parents", "MemSize", "MustExecute", "Removing",
   "NoTouch", "OldLabel", "ExportVars"]

/-- The per-property expression: `expr_map.get(prop_name, "")` where
`expr_map = dict(varset.ExpressionEngine)`. -/
def exprOf (varset : DocObj) (prop : String) : String :=
  ((varset.exprEngine.find? (fun p => p.1 == prop)).map (fun p => p.2)).getD ""

/-- The property label: `prop_name.split("_", 1)[-1]`, the text after the
first underscore or the whole name. -/
def propLabel (name : String) : String :=
  match pySplitOnce name '_' with
  | some p => p.2
  | none => name

/-- The SI-unit extraction of `export_payload` line 123:
`str(Unit).split()[1]` guarded by `count(' ') >= 1`.  The guard counts only
space characters while the indexing needs two whitespace tokens, so the
indexing can raise IndexError out of the inner try. -/
def unitSi (q : Quantity) : Except PyErr String :=
  if countChar q.unitRepr ' ' ≥ 1 then
    match (pySplitWs q.unitRepr).get? 1 with
    | some t => .ok t
    | none => .error (.indexError "list index out of range")
  else .ok "?"

/-- The display value and unit computed from the schemaTranslate string,
with the fallback the inner except clause installs. -/
def displayOf (q : Quantity) : ℚ × String :=
  let display_str := pyStrip q.schemaDisplay
  let parts := pySplitWs display_str
  let fallback : ℚ × String :=
    (q.value, ((pySplitWs q.unitRepr).get? 0).getD "?")
  if parts.length ≥ 2 then
    match pyFloat? (String.intercalate " " parts.dropLast) with
    | some x => (x, (parts.getLast?).getD "?")
    | none => fallback
  else if parts.length = 1 then
    match pyFloat? display_str with
    | some x => (x, "?")
    | none => fallback
  else fallback

/-- The `kind` field: the text after Property in the property type when the
type is truthy and contains both a double colon and the word Property. -/
def kindOf (propType : Option String) : Option String :=
  match propType with
  | none => none
  | some pt =>
    if strIn "::" pt && strIn "Property" pt then
      some ((pySplitSub pt "Property").getD 1 "")
    else none

/-- One element of the exported `params` array, one constructor per shape
the source appends. -/
inductive ParamEntry where
  | quantityEntry (path label name expr : String) (readonly : Bool)
      (value_si : ℚ) (unit_si : String) (kind : Option String)
      (displayValue : ℚ) (displayUnit : String)
  | stringEntry (path label name value : String)
  | numberEntry (path label name expr : String) (readonly : Bool)
      (value_si : ℚ) (unit_si : String) (displayValue : ℚ)
      (displayUnit : String)
  | writtenEntry (path label name : String) (nv : NewValue)
  | errorEntry (path label name error : String)
  deriving DecidableEq

/-- The `name` field every entry shape carries. -/
def ParamEntry.nameOf : ParamEntry → String
  | .quantityEntry _ _ n _ _ _ _ _ _ _ => n
  | .stringEntry _ _ n _ => n
  | .numberEntry _ _ n _ _ _ _ _ _ => n
  | .writtenEntry _ _ n _ => n
  | .errorEntry _ _ n _ => n

/-- The `value_si` field, when the entry shape has one. -/
def ParamEntry.valueSi? : ParamEntry → Option ℚ
  | .quantityEntry _ _ _ _ _ v _ _ _ _ => some v
  | .numberEntry _ _ _ _ _ v _ _ _ => some v
  | _ => none

/-- The `unit_si` field, when the entry shape has one. -/
def ParamEntry.unitSi? : ParamEntry → Option String
  | .quantityEntry _ _ _ _ _ _ u _ _ _ => some u
  | .numberEntry _ _ _ _ _ _ u _ _ => some u
  | _ => none

/-- The body of the per-property loop of `export_payload`.  A value stored
by an earlier import write is observed by the host as a fresh Quantity
whose rendering this embedding does not track; it is recorded as a
`writtenEntry`.  No claim exercises that case. -/
def exportProp (varset : DocObj) (vp : VarProp) : ParamEntry :=
  let path := varset.Name ++ ":" ++ varset.Label ++ "/" ++ vp.name
  let label := propLabel vp.name
  let expr := exprOf varset vp.name
  let readonly := expr ≠ ""
  match vp.value with
  | .quantity q =>
    match unitSi q with
    | .error e => .errorEntry path label vp.name e.str
    | .ok usi =>
      .quantityEntry path label vp.name expr readonly q.value usi
        (kindOf vp.propType) (displayOf q).1 (displayOf q).2
  | .str s => .stringEntry path label vp.name s
  | .num x => .numberEntry path label vp.name expr readonly x "?" x "?"
  | .nonNumeric =>
    .errorEntry path label vp.name
      "float() argument must be a string or a real number"
  | .written nv => .writtenEntry path label vp.name nv

/-- The `params` array of a successful export: the VarSet property list
with the skip set removed, each serialized by `exportProp`. -/
def exportParams (varset : DocObj) : List ParamEntry :=
  (varset.props.filter (fun vp => !(skip_props.contains vp.name))).map
    (exportProp varset)

/-- The metadata block of a successful export. -/
structure ExportMetadata where
  docName : String
  fileName : String
  filePath : Option String
  deriving DecidableEq

/-- The two payload shapes `export_payload` returns: the early error shape
with an empty params list, and the full shape. -/
inductive ExportPayload where
  | errorForm (docName : Option String) (filePath : Option String)
      (params : List ParamEntry) (error : String)
  | okForm (docVersion : String) (metadata : ExportMetadata)
      (params : List ParamEntry)
  deriving DecidableEq

/-- The `params` list of either payload shape. -/
def ExportPayload.params : ExportPayload → List ParamEntry
  | .errorForm _ _ ps _ => ps
  | .okForm _ _ ps => ps

/-- The `error` field, present only on the early error shape. -/
def ExportPayload.error? : ExportPayload → Option String
  | .errorForm _ _ _ e => some e
  | .okForm _ _ _ => none

/-- The `fileName` metadata field: last component of the slash-normalized
file path, with Untitled covering an absent, empty or directory-like
path. -/
def fileNameOf (filePath : Option String) : String :=
  let file_name : Option String :=
    match filePath with
    | some fp =>
      if fp ≠ "" then
        some (((pySplitCh (replaceChar fp '\\' '/') '/').getLast?).getD "")
      else none
    | none => none
  match file_name with
  | some fn => if fn ≠ "" then fn else "Untitled"
  | none => "Untitled"

/-- The function `export_payload`: the RuntimeError from
`get_varset_object` is caught into the error shape; otherwise the full
document metadata and the serialized params are returned. -/
def export_payload (doc : Option Doc) : ExportPayload :=
  match get_varset_object doc with
  | .error e =>
    .errorForm (doc.map (fun d => d.Label)) (doc.bind (fun d => d.FileName))
      [] e.str
  | .ok varset =>
    match doc with
    | none => .okForm "0.2" (ExportMetadata.mk "" "Untitled" none)
        (exportParams varset)
    | some d =>
      .okForm "0.2"
        (ExportMetadata.mk d.Label (fileNameOf d.FileName) d.FileName)
        (exportParams varset)

/-- The value `get_pq_mappings` returns when it does not raise: either the
mapping JSON stored on the VarSet or the default structure.  Whether
`json.loads` accepts the stored string is not modelled; no claim depends
on it. -/
inductive MappingResult where
  | stored (json : String)
  | defaultStructure
  deriving DecidableEq

/-- The function `get_pq_mappings`: the RuntimeError of
`get_varset_object` propagates to the caller. -/
def get_pq_mappings (doc : Option Doc) : Except PyErr MappingResult :=
  match get_varset_object doc with
  | .error e => .error e
  | .ok varset =>
    match varset.props.find? (fun vp => vp.name == "CalcsLiveMappings") with
    | some vp =>
      match vp.value with
      | .str s =>
        if s ≠ "" then .ok (MappingResult.stored s)
        else .ok MappingResult.defaultStructure
      | _ => .ok MappingResult.defaultStructure
    | none => .ok MappingResult.defaultStructure

/-- The function `set_pq_mappings`: look up the PQs VarSet, then store the
serialized mapping JSON in its CalcsLiveMappings string property; the
RuntimeError of `get_varset_object` propagates. -/
def set_pq_mappings (mappingJson : String) (doc : Option Doc) :
    Except PyErr Doc :=
  match get_varset_object doc with
  | .error e => .error e
  | .ok varset =>
    match doc with
    | none =>
      .error (.runtimeError "No active document. Create/open a document first.")
    | some d =>
      .ok (d.setObjProp varset.Name "CalcsLiveMappings" (.str mappingJson))

theorem subChars_nil : ∀ l : List Char, subChars [] l = true := by
  intro l
  cases l with
  | nil => rfl
  | cons c cs => rfl

theorem startsChars_self_append :
    ∀ (n t : List Char), startsChars n (n ++ t) = true := by
  intro n
  induction n with
  | nil => intro t; rfl
  | cons a as ih =>
    intro t
    simp [startsChars, ih]

theorem subChars_app_left :
    ∀ (pre n suf : List Char), subChars n (pre ++ (n ++ suf)) = true := by
  intro pre
  induction pre with
  | nil =>
    intro n suf
    cases n with
    | nil => exact subChars_nil suf
    | cons m ms =>
      show subChars (m :: ms) ((m :: ms) ++ suf) = true
      show (startsChars (m :: ms) ((m :: ms) ++ suf) ||
        subChars (m :: ms) (ms ++ suf)) = true
      rw [startsChars_self_append]
      rfl
  | cons p ps ih =>
    intro n suf
    show subChars n (p :: (ps ++ (n ++ suf))) = true
    show (startsChars n (p :: (ps ++ (n ++ suf))) ||
      subChars n (ps ++ (n ++ suf))) = true
    rw [ih n suf]
    exact Bool.or_true _

theorem strIn_append_middle (a b c : String) : strIn b (a ++ b ++ c) = true := by
  show subChars b.data ((a.data ++ b.data) ++ c.data) = true
  rw [List.append_assoc]
  exact subChars_app_left a.data b.data c.data

theorem str_append_assoc (a b c : String) : (a ++ b) ++ c = a ++ (b ++ c) :=
  congrArg String.mk (List.append_assoc a.data b.data c.data)

theorem strIn_varsetErrMsg (d : Doc) : strIn "PQs" (varsetErrMsg d) = true := by
  unfold varsetErrMsg
  by_cases h : (varsetsFoundList d.Objects).isEmpty = true
  · rw [if_pos h]
    exact strIn_append_middle ("No VarSet found with Label=" ++ sq) "PQs" sq
  · rw [if_neg h]
    rw [str_append_assoc (("No VarSet found with Label=" ++ sq) ++ "PQs") sq
      ". Found VarSets: "]
    rw [str_append_assoc (("No VarSet found with Label=" ++ sq) ++ "PQs")
      (sq ++ ". Found VarSets: ")
      (String.intercalate ", " (varsetsFoundList d.Objects))]
    exact strIn_append_middle ("No VarSet found with Label=" ++ sq) "PQs" _

theorem findVarsetLoop_eq_find? : ∀ objs : List DocObj,
    findVarsetLoop objs =
      objs.find? (fun o => o.TypeId == "App::VarSet" && o.Label == "PQs") := by
  intro objs
  induction objs with
  | nil => rfl
  | cons o rest ih =>
    cases hp : (o.TypeId == "App::VarSet" && o.Label == "PQs") with
    | true => simp [findVarsetLoop, List.find?, hp]
    | false => simp [findVarsetLoop, List.find?, hp, ih]

/-- C7: every server-side VarSet operation goes through get_varset_object,
which returns the first document object whose TypeId is App::VarSet and
whose Label is exactly PQs; when no such object exists it raises a
RuntimeError whose message names the missing PQs label, and export, the
mapping read and the mapping store all propagate or report exactly that
lookup. -/
theorem c7_varset_lookup :
    (∀ (d : Doc) (v : DocObj),
        d.Objects.find? (fun o => o.TypeId == "App::VarSet" &&
          o.Label == "PQs") = some v →
        get_varset_object (some d) = .ok v) ∧
    (∀ d : Doc,
        d.Objects.find? (fun o => o.TypeId == "App::VarSet" &&
          o.Label == "PQs") = none →
        get_varset_object (some d) = .error (.runtimeError (varsetErrMsg d)) ∧
        strIn "PQs" (varsetErrMsg d) = true) ∧
    (∀ (d : Doc) (e : PyErr), get_varset_object (some d) = .error e →
        export_payload (some d) =
          .errorForm (some d.Label) d.FileName [] e.str ∧
        get_pq_mappings (some d) = .error e ∧
        (∀ mj, set_pq_mappings mj (some d) = .error e)) ∧
    (∀ (d : Doc) (v : DocObj), get_varset_object (some d) = .ok v →
        export_payload (some d) =
          .okForm "0.2" (ExportMetadata.mk d.Label (fileNameOf d.FileName)
            d.FileName) (exportParams v) ∧
        (∀ mj, set_pq_mappings mj (some d) =
          .ok (d.setObjProp v.Name "CalcsLiveMappings" (.str mj)))) := by
  refine ⟨?_, ?_, ?_, ?_⟩
  · intro d v h
    simp only [get_varset_object, findVarsetLoop_eq_find?, h]
  · intro d h
    refine ⟨?_, strIn_varsetErrMsg d⟩
    simp only [get_varset_object, findVarsetLoop_eq_find?, h]
  · intro d e h
    refine ⟨?_, ?_, ?_⟩
    · simp only [export_payload, h, Option.map_some', Option.some_bind]
    · simp only [get_pq_mappings, h]
    · intro mj
      simp only [set_pq_mappings, h]
  · intro d v h
    refine ⟨?_, ?_⟩
    · simp only [export_payload, h]
    · intro mj
      simp only [set_pq_mappings, h]

/-- C7 witness: the lookup discharged on a concrete document holding a
decoy VarSet with the wrong label before the PQs VarSet, and on a concrete
document with no PQs VarSet. -/
theorem c7_varset_lookup_witness :
    get_varset_object (some (Doc.mk "d" none
        [DocObj.mk "VarSet" "Other" "App::VarSet" [] [],
         DocObj.mk "VarSet001" "PQs" "App::VarSet" [] [],
         DocObj.mk "VarSet002" "PQs" "App::VarSet" [] []])) =
      .ok (DocObj.mk "VarSet001" "PQs" "App::VarSet" [] []) ∧
    (get_varset_object (some (Doc.mk "d" none
        [DocObj.mk "Box" "Box" "Part::Box" [] []])) =
      .error (.runtimeError
        (varsetErrMsg (Doc.mk "d" none
          [DocObj.mk "Box" "Box" "Part::Box" [] []]))) ∧
      strIn "PQs" (varsetErrMsg (Doc.mk "d" none
        [DocObj.mk "Box" "Box" "Part::Box" [] []])) = true) := by
  constructor
  · exact c7_varset_lookup.1
      (Doc.mk "d" none
        [DocObj.mk "VarSet" "Other" "App::VarSet" [] [],
         DocObj.mk "VarSet001" "PQs" "App::VarSet" [] [],
         DocObj.mk "VarSet002" "PQs" "App::VarSet" [] []])
      (DocObj.mk "VarSet001" "PQs" "App::VarSet" [] []) (by decide)
  · exact c7_varset_lookup.2.1
      (Doc.mk "d" none [DocObj.mk "Box" "Box" "Part::Box" [] []])
      (by decide)

/-- C2 (amended): for every property of the exchange VarSet not in the skip
set whose value carries a Value attribute, provided the SI-unit token
extraction does not raise - that is, unless str(value.Unit) contains a
space character yet fewer than two whitespace tokens - the returned params
list contains an entry holding that property name, its value and its
unit. -/
theorem c2_export_quantity_entry (varset : DocObj) (vp : VarProp)
    (q : Quantity) (usi : String) (hmem : vp ∈ varset.props)
    (hskip : skip_props.contains vp.name = false)
    (hq : vp.value = .quantity q) (husi : unitSi q = .ok usi) :
    ∃ e, e ∈ exportParams varset ∧ e.nameOf = vp.name ∧
      e.valueSi? = some q.value ∧ e.unitSi? = some usi := by
  have key : exportProp varset vp =
      .quantityEntry (varset.Name ++ ":" ++ varset.Label ++ "/" ++ vp.name)
        (propLabel vp.name) vp.name (exprOf varset vp.name)
        (exprOf varset vp.name ≠ "") q.value usi (kindOf vp.propType)
        (displayOf q).1 (displayOf q).2 := by
    unfold exportProp
    rw [hq]
    simp only [husi]
  refine ⟨exportProp varset vp, ?_, ?_, ?_, ?_⟩
  · unfold exportParams
    exact List.mem_map_of_mem _
      (List.mem_filter.mpr ⟨hmem, by rw [hskip]; rfl⟩)
  · rw [key]
    rfl
  · rw [key]
    rfl
  · rw [key]
    rfl

/-- C2 counterexample: the claim as stated fails on a PQs VarSet holding a
quantity property whose Unit renders as the two characters x and space:
the guard count(" ") is 1 but split() yields a single token, the [1]
indexing raises IndexError outside the inner try, and export appends an
error entry that carries neither the value nor the unit. -/
theorem c2_counterexample :
    ¬ (∀ (varset : DocObj) (vp : VarProp) (q : Quantity),
        vp ∈ varset.props → skip_props.contains vp.name = false →
        vp.value = .quantity q →
        ∃ e, e ∈ exportParams varset ∧ e.nameOf = vp.name ∧
          e.valueSi? = some q.value ∧ (e.unitSi?).isSome = true) := by
  intro h
  obtain ⟨e, he, hn, hv, hu⟩ := h
    (DocObj.mk "VarSet" "PQs" "App::VarSet"
      [VarProp.mk "Base_L" (.quantity (Quantity.mk 5 "x " "5 mm"))
        (some "App::PropertyLength")] [])
    (VarProp.mk "Base_L" (.quantity (Quantity.mk 5 "x " "5 mm"))
      (some "App::PropertyLength"))
    (Quantity.mk 5 "x " "5 mm")
    (List.mem_singleton.mpr rfl) (by decide) rfl
  have hexp : exportParams (DocObj.mk "VarSet" "PQs" "App::VarSet"
      [VarProp.mk "Base_L" (.quantity (Quantity.mk 5 "x " "5 mm"))
        (some "App::PropertyLength")] []) =
      [ParamEntry.errorEntry "VarSet:PQs/Base_L" "L" "Base_L"
        "list index out of range"] := by rfl
  rw [hexp] at he
  rw [List.mem_singleton.mp he] at hv
  exact Option.noConfusion hv

/-- C2 witness: the amended export statement discharged on a concrete PQs
VarSet with one well-formed length property. -/
theorem c2_export_quantity_entry_witness :
    ∃ e, e ∈ exportParams (DocObj.mk "VarSet" "PQs" "App::VarSet"
        [VarProp.mk "Base_L" (.quantity (Quantity.mk 5 "Unit: mm" "5.00 mm"))
          (some "App::PropertyLength")] []) ∧
      e.nameOf = "Base_L" ∧ e.valueSi? = some 5 ∧ e.unitSi? = some "mm" :=
  c2_export_quantity_entry
    (DocObj.mk "VarSet" "PQs" "App::VarSet"
      [VarProp.mk "Base_L" (.quantity (Quantity.mk 5 "Unit: mm" "5.00 mm"))
        (some "App::PropertyLength")] [])
    (VarProp.mk "Base_L" (.quantity (Quantity.mk 5 "Unit: mm" "5.00 mm"))
      (some "App::PropertyLength"))
    (Quantity.mk 5 "Unit: mm" "5.00 mm") "mm"
    (List.mem_singleton.mpr rfl) (by decide) rfl (by rfl)

/-! ## HTTP handler dispatch (claims C3 and C9)

The handler methods `do_GET` and `do_POST` wrap each endpoint operation in
a try/except.  The operations run against the live host, so their outcome
is an input of the dispatch model: a `World` carries, per endpoint, either
the value the operation returned or the `str()` of the exception it
raised.  The pure embedding of each operation instantiates the world
through `worldOf`.  Logging is a console side effect outside the model. -/

/-- The data the status endpoint reads from the host before answering. -/
structure StatusInfo where
  activeDoc : Option String
  deriving DecidableEq

/-- Per-request outcomes of the six endpoint operations. -/
structure World where
  exportRes : Except String ExportPayload
  mappingGetRes : Except String MappingResult
  cleanUnitsRes : Except String Bool
  statusRes : Except String StatusInfo
  importRes : Except String (List AppliedEntry × List ErrorEntry)
  mappingPostRes : Except String Bool

/-- A response body of the plug server. -/
inductive Body where
  | exportB (p : ExportPayload)
  | mappingB (m : MappingResult)
  | cleanUnitsB
  | statusB (info : StatusInfo)
  | statusErrB (e : String)
  | importB (applied : List AppliedEntry) (errors : List ErrorEntry)
  | saveMappingB
  | errorB (e : String)
  | notFoundB

/-- The method `CalcsLivePlugHandler.do_GET`: dispatch on the path string;
every branch catches the exception of its operation, and all of them
except the status branch answer 500 with the error string - the status
branch answers 200. -/
def do_GET (path : String) (w : World) : Nat × Body :=
  if path = "/calcslive/export" then
    match w.exportRes with
    | .ok p => (200, .exportB p)
    | .error e => (500, .errorB e)
  else if path = "/calcslive/mapping" then
    match w.mappingGetRes with
    | .ok m => (200, .mappingB m)
    | .error e => (500, .errorB e)
  else if path = "/calcslive/clean-units" then
    match w.cleanUnitsRes with
    | .ok _ => (200, .cleanUnitsB)
    | .error e => (500, .errorB e)
  else if path = "/calcslive/status" then
    match w.statusRes with
    | .ok info => (200, .statusB info)
    | .error e => (200, .statusErrB e)
  else (404, .notFoundB)

/-- The method `CalcsLivePlugHandler.do_POST`: import and mapping-save
branches, each catching into a 500 response. -/
def do_POST (path : String) (w : World) : Nat × Body :=
  if path = "/calcslive/import" then
    match w.importRes with
    | .ok r => (200, .importB r.1 r.2)
    | .error e => (500, .errorB e)
  else if path = "/calcslive/mapping" then
    match w.mappingPostRes with
    | .ok _ => (200, .saveMappingB)
    | .error e => (500, .errorB e)
  else (404, .notFoundB)

/-- The world produced by the pure embeddings of the endpoint operations
on a given document and request data; none of them raises in the model,
so every field is an ok outcome except where the operation itself
propagates a modelled exception. -/
def worldOf (doc : Option Doc) (req : ImportRequest) (mj : String) : World :=
  { exportRes := .ok (export_payload doc),
    mappingGetRes := (get_pq_mappings doc).mapError PyErr.str,
    cleanUnitsRes := .ok true,
    statusRes := .ok (StatusInfo.mk (doc.map (fun d => d.Label))),
    importRes := .ok
      ((apply_updates req.updates doc
          (req.allowOverrideExpression.getD false)).applied,
        (apply_updates req.updates doc
          (req.allowOverrideExpression.getD false)).errors),
    mappingPostRes := ((set_pq_mappings mj doc).map (fun _ => true)).mapError
      PyErr.str }

/-- C3 counterexample: on the recognized endpoint /calcslive/status with a
raising operation the handler answers 200, not 500. -/
theorem c3_counterexample :
    (World.mk (.error "x") (.error "x") (.error "x") (.error "boom")
        (.error "x") (.error "x")).statusRes = .error "boom" ∧
    do_GET "/calcslive/status"
        (World.mk (.error "x") (.error "x") (.error "x") (.error "boom")
          (.error "x") (.error "x")) = (200, .statusErrB "boom") ∧
    (200 : Nat) ≠ 500 := by
  refine ⟨rfl, ?_, by decide⟩
  unfold do_GET
  rw [if_neg (by decide), if_neg (by decide), if_neg (by decide),
    if_pos rfl]

/-- C3 (amended): for every request to a recognized endpoint whose
underlying operation raises, the handler catches the exception and answers
with a JSON body carrying the error string and never propagates it; the
status is 500 on every endpoint except /calcslive/status, which answers
200. -/
theorem c3_catch_semantics (w : World) (e : String) :
    (w.exportRes = .error e →
      do_GET "/calcslive/export" w = (500, .errorB e)) ∧
    (w.mappingGetRes = .error e →
      do_GET "/calcslive/mapping" w = (500, .errorB e)) ∧
    (w.cleanUnitsRes = .error e →
      do_GET "/calcslive/clean-units" w = (500, .errorB e)) ∧
    (w.statusRes = .error e →
      do_GET "/calcslive/status" w = (200, .statusErrB e)) ∧
    (w.importRes = .error e →
      do_POST "/calcslive/import" w = (500, .errorB e)) ∧
    (w.mappingPostRes = .error e →
      do_POST "/calcslive/mapping" w = (500, .errorB e)) := by
  refine ⟨?_, ?_, ?_, ?_, ?_, ?_⟩
  · intro h
    unfold do_GET
    rw [if_pos rfl, h]
  · intro h
    unfold do_GET
    rw [if_neg (by decide), if_pos rfl, h]
  · intro h
    unfold do_GET
    rw [if_neg (by decide), if_neg (by decide), if_pos rfl, h]
  · intro h
    unfold do_GET
    rw [if_neg (by decide), if_neg (by decide), if_neg (by decide),
      if_pos rfl, h]
  · intro h
    unfold do_POST
    rw [if_pos rfl, h]
  · intro h
    unfold do_POST
    rw [if_neg (by decide), if_pos rfl, h]

/-- C3 witness: all six catch clauses of `c3_catch_semantics` discharged on
a concrete world in which every operation raises. -/
theorem c3_catch_semantics_witness :
    do_GET "/calcslive/export"
        (World.mk (.error "boom") (.error "boom") (.error "boom")
          (.error "boom") (.error "boom") (.error "boom")) =
      (500, .errorB "boom") ∧
    do_GET "/calcslive/mapping"
        (World.mk (.error "boom") (.error "boom") (.error "boom")
          (.error "boom") (.error "boom") (.error "boom")) =
      (500, .errorB "boom") ∧
    do_GET "/calcslive/clean-units"
        (World.mk (.error "boom") (.error "boom") (.error "boom")
          (.error "boom") (.error "boom") (.error "boom")) =
      (500, .errorB "boom") ∧
    do_GET "/calcslive/status"
        (World.mk (.error "boom") (.error "boom") (.error "boom")
          (.error "boom") (.error "boom") (.error "boom")) =
      (200, .statusErrB "boom") ∧
    do_POST "/calcslive/import"
        (World.mk (.error "boom") (.error "boom") (.error "boom")
          (.error "boom") (.error "boom") (.error "boom")) =
      (500, .errorB "boom") ∧
    do_POST "/calcslive/mapping"
        (World.mk (.error "boom") (.error "boom") (.error "boom")
          (.error "boom") (.error "boom") (.error "boom")) =
      (500, .errorB "boom") := by
  have h := c3_catch_semantics
    (World.mk (.error "boom") (.error "boom") (.error "boom")
      (.error "boom") (.error "boom") (.error "boom")) "boom"
  exact ⟨h.1 rfl, h.2.1 rfl, h.2.2.1 rfl, h.2.2.2.1 rfl, h.2.2.2.2.1 rfl,
    h.2.2.2.2.2 rfl⟩

/-- C9: a GET /calcslive/export request on a document with no VarSet
labeled PQs is answered with status 200, not 500, and a payload whose
params field is the empty list and whose error field carries the failure
message. -/
theorem c9_export_no_varset (d : Doc) (req : ImportRequest) (mj : String)
    (h : d.Objects.find? (fun o => o.TypeId == "App::VarSet" &&
      o.Label == "PQs") = none) :
    do_GET "/calcslive/export" (worldOf (some d) req mj) =
      (200, .exportB (.errorForm (some d.Label) d.FileName []
        (varsetErrMsg d))) ∧
    (do_GET "/calcslive/export" (worldOf (some d) req mj)).1 ≠ 500 ∧
    (export_payload (some d)).params = [] ∧
    (export_payload (some d)).error? = some (varsetErrMsg d) := by
  have hv : get_varset_object (some d) =
      .error (.runtimeError (varsetErrMsg d)) := by
    simp only [get_varset_object, findVarsetLoop_eq_find?, h]
  have hep : export_payload (some d) =
      .errorForm (some d.Label) d.FileName [] (varsetErrMsg d) := by
    simp only [export_payload, hv, Option.map_some', Option.some_bind,
      PyErr.str]
  have hmain : do_GET "/calcslive/export" (worldOf (some d) req mj) =
      (200, .exportB (.errorForm (some d.Label) d.FileName []
        (varsetErrMsg d))) := by
    unfold do_GET worldOf
    rw [if_pos rfl]
    simp only [hep]
  refine ⟨hmain, ?_, ?_, ?_⟩
  · rw [hmain]
    exact (by decide : (200 : Nat) ≠ 500)
  · rw [hep]
    rfl
  · rw [hep]
    rfl

/-- C9 witness: the export response discharged on a concrete document
containing a single non-VarSet object. -/
theorem c9_export_no_varset_witness :
    do_GET "/calcslive/export"
        (worldOf (some (Doc.mk "d" none
          [DocObj.mk "Box" "Box" "Part::Box" [] []]))
          (ImportRequest.mk [] none) "") =
      (200, .exportB (.errorForm (some "d") none []
        (varsetErrMsg (Doc.mk "d" none
          [DocObj.mk "Box" "Box" "Part::Box" [] []])))) :=
  (c9_export_no_varset (Doc.mk "d" none
      [DocObj.mk "Box" "Box" "Part::Box" [] []])
    (ImportRequest.mk [] none) "" (by decide)).1

/-! ## Server threading model (claim C4)

src/calcslive-freecad-plug-server.py lines 611 to 686. -/

/-- The two HTTP server classes the standard library offers here. -/
inductive ServerClass where
  | threadingHTTPServer
  | plainHTTPServer
  deriving DecidableEq

/-- The class `_run_server` instantiates at line 615:
`ThreadingHTTPServer((HOST, PORT), CalcsLivePlugHandler)`. -/
def runServerClass : ServerClass := .threadingHTTPServer

/-- Modelled from the Python standard library semantics the source relies
on: ThreadingHTTPServer mixes in socketserver.ThreadingMixIn, which
processes each request in a new thread, while a plain HTTPServer handles
every request on the serving thread itself. -/
def ServerClass.threadsPerRequest : ServerClass → Nat
  | .threadingHTTPServer => 1
  | .plainHTTPServer => 0

/-- The observable plug state: the module globals `_server_thread` and
`_httpd`. -/
structure PlugState where
  serverThreadAlive : Bool
  httpdExists : Bool
  deriving DecidableEq

/-- The function `plug_in`: when no server thread is alive, start exactly
one daemon thread running `_run_server`; otherwise start nothing.  The
last component counts the threads this call starts. -/
def plug_in (s : PlugState) : PlugState × Bool × Nat :=
  if s.serverThreadAlive then (s, true, 0)
  else (PlugState.mk true true, true, 1)

/-- The function `unplug`: shut the server down and join the one server
thread; afterwards neither global refers to a live server. -/
def unplug (_ : PlugState) : PlugState × Bool :=
  (PlugState.mk false false, true)

/-- The function `is_plugged_in`. -/
def is_plugged_in (s : PlugState) : Bool :=
  s.serverThreadAlive && s.httpdExists

/-- Threads started over a whole server lifetime in which n requests are
handled: the one thread plug_in starts plus one per request dispatched by
the ThreadingHTTPServer. -/
def totalThreadsStarted (nRequests : Nat) : Nat :=
  1 + nRequests * runServerClass.threadsPerRequest

/-- C4 counterexample: the claim that exactly one thread is started for
the whole server lifetime fails as soon as one request is handled, because
`_run_server` constructs a ThreadingHTTPServer. -/
theorem c4_counterexample :
    runServerClass = ServerClass.threadingHTTPServer ∧
    totalThreadsStarted 1 = 2 ∧ totalThreadsStarted 1 ≠ 1 := by
  refine ⟨rfl, rfl, by decide⟩

/-- C4 (amended): plug_in starts exactly one background server thread when
none is alive and none otherwise, unplug joins it and clears both globals,
but the server constructed by _run_server is a ThreadingHTTPServer which
handles each request on a fresh thread, so a lifetime with n requests
starts 1 + n threads and requests are not handled sequentially on the one
server thread. -/
theorem c4_threading (n : Nat) :
    totalThreadsStarted n = 1 + n ∧
    runServerClass.threadsPerRequest = 1 ∧
    (plug_in (PlugState.mk false false)).2.2 = 1 ∧
    (plug_in (plug_in (PlugState.mk false false)).1).2.2 = 0 ∧
    is_plugged_in (plug_in (PlugState.mk false false)).1 = true ∧
    is_plugged_in (unplug (plug_in (PlugState.mk false false)).1).1 = false := by
  refine ⟨?_, rfl, rfl, rfl, rfl, rfl⟩
  show 1 + n * 1 = 1 + n
  omega

/-- C4 witness: the thread count of `c4_threading` discharged at a
lifetime of three requests. -/
theorem c4_threading_witness : totalThreadsStarted 3 = 1 + 3 :=
  (c4_threading 3).1

end CalcsLive
